import Mathlib

/-!
Shallow embedding of the CHIP8 virtual machine core from `src/chip8.c`
(the `chip8_t` machine object, `init_chip8`, and `emulate_instruction`),
together with theorems checking the natural-language specification
against it.

Machine integers are modelled as `Nat` with explicit reduction modulo
2^8 / 2^16 where the C code uses `uint8_t` / `uint16_t` arithmetic.
Arrays (`ram[4096]`, `display[64*32]`, `stack[12]`, `V[16]`,
`keypad[16]`) are modelled as lists; accesses the C code performs
without a bounds check are modelled totally, with a per-array
out-of-bounds flag (`iOob`, `keyOob`, `stackOob`) recording that the C
code would have indexed outside the array (undefined behaviour).  The
transient `inst` scratch record of the C struct is recomputed from the
opcode every cycle and never read across cycles, so it is represented
by pure functions of the opcode word rather than by state fields.
`rand()` of opcode `0xC` is modelled by an explicit stream of bytes in
the state.
-/

namespace Chip8Spec

/-- Truncation to 8 bits, as assignment to a C `uint8_t`. -/
def u8 (n : Nat) : Nat := n % 256

/-- Truncation to 16 bits, as assignment to a C `uint16_t`. -/
def u16 (n : Nat) : Nat := n % 65536

/-- `emulator_state_t`: QUIT / RUNNING / PAUSED. -/
inductive EmuState where
  | QUIT
  | RUNNING
  | PAUSED
deriving DecidableEq, Repr

/-- The `chip8_t` machine object (minus the SDL-side `rom_name` string
and the transient `inst` scratch record). -/
structure Chip8 where
  state : EmuState
  ram : List Nat        -- uint8_t ram[4096]
  display : List Bool   -- bool display[64*32]
  stack : List Nat      -- uint16_t stack[12]
  SP : Nat              -- uint8_t
  V : List Nat          -- uint8_t V[16]
  I : Nat               -- uint16_t
  PC : Nat              -- uint16_t
  delay_timer : Nat     -- uint8_t
  sound_timer : Nat     -- uint8_t
  keypad : List Bool    -- bool keypad[16]
  rand : List Nat       -- pending rand() % 256 values
  iOob : Bool           -- a ram access indexed through I was out of bounds
  keyOob : Bool         -- a keypad access was out of bounds
  stackOob : Bool       -- a stack access was out of bounds
deriving DecidableEq, Repr

/-- `inst.NNN = opcode & 0x0FFF`. -/
def instNNN (op : Nat) : Nat := op &&& 0xFFF

/-- `inst.NN = opcode & 0x0FF`. -/
def instNN (op : Nat) : Nat := op &&& 0xFF

/-- `inst.N = opcode & 0x0F`. -/
def instN (op : Nat) : Nat := op &&& 0xF

/-- `inst.X = (opcode >> 8) & 0x0F`. -/
def instX (op : Nat) : Nat := (op >>> 8) &&& 0xF

/-- `inst.Y = (opcode >> 4) & 0x0F`. -/
def instY (op : Nat) : Nat := (op >>> 4) &&& 0xF

/-- Read of `V[i]` (the C code always indexes `V` with a 4-bit value,
so this access is in bounds; out of range it defaults to 0). -/
def getV (s : Chip8) (i : Nat) : Nat := s.V.getD i 0

/-- Read of `ram[i]` through the index register `I`: the C code does
not bounds-check these, so the out-of-bounds case is flagged. -/
def ramReadI (ram : List Nat) (i : Nat) : Nat × Bool :=
  match ram[i]? with
  | some b => (b, false)
  | none => (0, true)

/-- Write of `ram[i] = v` through the index register `I`, flagging the
out-of-bounds case. -/
def ramWriteI (ram : List Nat) (i v : Nat) : List Nat × Bool :=
  if i < ram.length then (ram.set i v, false) else (ram, true)

/-- Inner loop of the `0xDXYN` draw handler: starting at column `x`
with sprite bit index `j`, XOR `cnt` sprite bits of `sb` into row `y`
of the display (`*pixel ^= sprite_bit`). -/
def drawRowFrom (disp : List Bool) (sb y x j : Nat) : Nat → List Bool
  | 0 => disp
  | Nat.succ cnt =>
    let index := y * 64 + x
    let bit := (sb &&& (0x80 >>> j)) != 0
    drawRowFrom (disp.set index (xor (disp.getD index false) bit)) sb y (x + 1) (j + 1) cnt

/-- Outer loop of the `0xDXYN` draw handler: draw `cnt` sprite rows,
row `y` taking its sprite byte from `ram[I + r]`; the second component
flags any out-of-bounds sprite-byte read. -/
def drawRowsFrom (ram : List Nat) (disp : List Bool) (I xs xe y r : Nat) :
    Nat → List Bool × Bool
  | 0 => (disp, false)
  | Nat.succ cnt =>
    let sbf := ramReadI ram (I + r)
    let d1 := drawRowFrom disp sbf.1 y xs 0 (xe - xs)
    let rest := drawRowsFrom ram d1 I xs xe (y + 1) (r + 1) cnt
    (rest.1, sbf.2 || rest.2)

/-- Loop of `0xFX55`: `ram[I + i] = V[i]` for `cnt` values of `i`
counting up from `i`; flags out-of-bounds writes. -/
def storeRegs (ram V : List Nat) (I i : Nat) : Nat → List Nat × Bool
  | 0 => (ram, false)
  | Nat.succ cnt =>
    let w := ramWriteI ram (I + i) (V.getD i 0)
    let rest := storeRegs w.1 V I (i + 1) cnt
    (rest.1, w.2 || rest.2)

/-- Loop of `0xFX65`: `V[i] = ram[I + i]` for `cnt` values of `i`
counting up from `i`; flags out-of-bounds reads. -/
def loadRegs (ram V : List Nat) (I i : Nat) : Nat → List Nat × Bool
  | 0 => (V, false)
  | Nat.succ cnt =>
    let r := ramReadI ram (I + i)
    let rest := loadRegs ram (V.set i r.1) I (i + 1) cnt
    (rest.1, r.2 || rest.2)

/-- `case 0x0`: clear screen / return from subroutine / `0xNNN` no-op.
The return decrements the `uint8_t` stack pointer (wrapping at 0) and
reads `stack[SP]` with no bounds check. -/
def exec0 (s : Chip8) (op : Nat) : Chip8 :=
  if instNN op = 0xE0 then
    { s with display := List.replicate (64 * 32) false }
  else if instNN op = 0xEE then
    let SP1 := u8 (s.SP + 255)
    match s.stack[SP1]? with
    | some v => { s with SP := SP1, PC := v }
    | none => { s with SP := SP1, stackOob := true }
  else s

/-- `case 0x2`: call subroutine; writes `stack[SP]` with no bounds
check, then increments the `uint8_t` stack pointer. -/
def execCall (s : Chip8) (op : Nat) : Chip8 :=
  let w := if s.SP < s.stack.length then (s.stack.set s.SP s.PC, false)
           else (s.stack, true)
  { s with stack := w.1, PC := instNNN op, SP := u8 (s.SP + 1),
           stackOob := s.stackOob || w.2 }

/-- `case 0x8`: ALU operations dispatched on the low nibble.  Note the
C code writes the flag `V[0xF]` before performing the arithmetic
assignment, so the assignment reads the already-updated registers. -/
def exec8 (s : Chip8) (op : Nat) : Chip8 :=
  let X := instX op
  let Y := instY op
  if instN op = 0x0 then { s with V := s.V.set X (getV s Y) }
  else if instN op = 0x1 then { s with V := s.V.set X (getV s X ||| getV s Y) }
  else if instN op = 0x2 then { s with V := s.V.set X (getV s X &&& getV s Y) }
  else if instN op = 0x3 then { s with V := s.V.set X (getV s X ^^^ getV s Y) }
  else if instN op = 0x4 then
    let sum := getV s X + getV s Y
    let s1 := { s with V := s.V.set 0xF (if sum > 0xFF then 1 else 0) }
    { s1 with V := s1.V.set X (u8 (getV s1 X + getV s1 Y)) }
  else if instN op = 0x5 then
    let s1 := { s with V := s.V.set 0xF (if getV s X ≥ getV s Y then 1 else 0) }
    { s1 with V := s1.V.set X (u8 (getV s1 X + 256 - getV s1 Y)) }
  else if instN op = 0x6 then
    let s1 := { s with V := s.V.set 0xF (getV s X &&& 0x1) }
    { s1 with V := s1.V.set X (getV s1 X >>> 1) }
  else if instN op = 0x7 then
    let s1 := { s with V := s.V.set 0xF (if getV s Y > getV s X then 1 else 0) }
    { s1 with V := s1.V.set X (u8 (getV s1 Y + 256 - getV s1 X)) }
  else if instN op = 0xE then
    let s1 := { s with V := s.V.set 0xF ((getV s X &&& 0x80) >>> 7) }
    { s1 with V := s1.V.set X (u8 (getV s1 X <<< 1)) }
  else s

/-- `case 0xD`: sprite draw.  Starting coordinates wrap modulo 64/32,
the body is clipped by `MIN` against the screen edges, and `V[0xF]` is
reset to 0 before drawing.  (The C code never sets `V[0xF]` to 1 in the
draw loop.) -/
def execDraw (s : Chip8) (op : Nat) : Chip8 :=
  let xs := getV s (instX op) % 64
  let ys := getV s (instY op) % 32
  let xe := min (xs + 8) 64
  let ye := min (ys + instN op) 32
  let s1 := { s with V := s.V.set 0xF 0 }
  let res := drawRowsFrom s1.ram s1.display s1.I xs xe ys 0 (ye - ys)
  { s1 with display := res.1, iOob := s1.iOob || res.2 }

/-- `case 0xE`: skip on key state; the C code indexes `keypad[VX]`
with the full 8-bit register value and no bounds check. -/
def execE (s : Chip8) (op : Nat) : Chip8 :=
  if instNN op = 0x9E then
    match s.keypad[getV s (instX op)]? with
    | some b => if b then { s with PC := u16 (s.PC + 2) } else s
    | none => { s with keyOob := true }
  else if instNN op = 0xA1 then
    match s.keypad[getV s (instX op)]? with
    | some b => if !b then { s with PC := u16 (s.PC + 2) } else s
    | none => { s with keyOob := true }
  else s

/-- `case 0xF`: dispatched on the low byte.  `0xFX0A` scans the keypad
with `for (key = 0; key < 0xF; key++)`, i.e. keys 0 through 14, and
rewinds PC by 2 when none of those is pressed. -/
def execF (s : Chip8) (op : Nat) : Chip8 :=
  let X := instX op
  if instNN op = 0x07 then { s with V := s.V.set X s.delay_timer }
  else if instNN op = 0x0A then
    match (List.range 0xF).find? (fun key => s.keypad.getD key false) with
    | some key => { s with V := s.V.set X key }
    | none => { s with PC := u16 (s.PC + 65534) }
  else if instNN op = 0x15 then { s with delay_timer := getV s X }
  else if instNN op = 0x18 then { s with sound_timer := getV s X }
  else if instNN op = 0x1E then { s with I := u16 (s.I + getV s X) }
  else if instNN op = 0x29 then { s with I := u16 (0 + getV s X * 5) }
  else if instNN op = 0x33 then
    let bcd := getV s X
    let w1 := ramWriteI s.ram (s.I + 2) (bcd % 10)
    let bcd1 := bcd / 10
    let w2 := ramWriteI w1.1 (s.I + 1) (bcd1 % 10)
    let bcd2 := bcd1 / 10
    let w3 := ramWriteI w2.1 s.I (bcd2 % 10)
    { s with ram := w3.1, iOob := s.iOob || w1.2 || w2.2 || w3.2 }
  else if instNN op = 0x55 then
    let w := storeRegs s.ram s.V s.I 0 (X + 1)
    { s with ram := w.1, iOob := s.iOob || w.2 }
  else if instNN op = 0x65 then
    let w := loadRegs s.ram s.V s.I 0 (X + 1)
    { s with V := w.1, iOob := s.iOob || w.2 }
  else s

/-- The `switch ((opcode >> 12) & 0xF)` dispatch of
`emulate_instruction`, applied to the state after the PC advance. -/
def exec (s : Chip8) (op : Nat) : Chip8 :=
  let hi := (op >>> 12) &&& 0xF
  if hi = 0x0 then exec0 s op
  else if hi = 0x1 then { s with PC := instNNN op }
  else if hi = 0x2 then execCall s op
  else if hi = 0x3 then
    if getV s (instX op) = instNN op then { s with PC := u16 (s.PC + 2) } else s
  else if hi = 0x4 then
    if getV s (instX op) ≠ instNN op then { s with PC := u16 (s.PC + 2) } else s
  else if hi = 0x5 then
    if getV s (instX op) = getV s (instY op) then { s with PC := u16 (s.PC + 2) } else s
  else if hi = 0x6 then { s with V := s.V.set (instX op) (instNN op) }
  else if hi = 0x7 then
    { s with V := s.V.set (instX op) (u8 (getV s (instX op) + instNN op)) }
  else if hi = 0x8 then exec8 s op
  else if hi = 0x9 then
    if getV s (instX op) ≠ getV s (instY op) then { s with PC := u16 (s.PC + 2) } else s
  else if hi = 0xA then { s with I := instNNN op }
  else if hi = 0xB then { s with PC := u16 (getV s 0x0 + instNNN op) }
  else if hi = 0xC then
    { s with V := s.V.set (instX op) (u8 (s.rand.headD 0) &&& instNN op),
             rand := s.rand.tail }
  else if hi = 0xD then execDraw s op
  else if hi = 0xE then execE s op
  else if hi = 0xF then execF s op
  else s

/-- An opcode is recognized when the nested switches of
`emulate_instruction` reach a handler rather than an empty branch:
`0x0`-family only for `0x00E0`/`0x00EE`, `0x8`-family only for low
nibbles 0-7 and E, `0xE`-family only for low bytes `0x9E`/`0xA1`,
`0xF`-family only for the nine listed low bytes; top nibbles 1-7, 9-D
are always handled. -/
def recognized (op : Nat) : Bool :=
  let hi := (op >>> 12) &&& 0xF
  if hi = 0x0 then instNN op = 0xE0 || instNN op = 0xEE
  else if hi = 0x8 then instN op ≤ 0x7 || instN op = 0xE
  else if hi = 0xE then instNN op = 0x9E || instNN op = 0xA1
  else if hi = 0xF then
    instNN op = 0x07 || instNN op = 0x0A || instNN op = 0x15 ||
    instNN op = 0x18 || instNN op = 0x1E || instNN op = 0x29 ||
    instNN op = 0x33 || instNN op = 0x55 || instNN op = 0x65
  else true

/-- The big-endian opcode fetch
`ram[PC] << 8 | ram[PC + 1]` of `emulate_instruction`. -/
def fetchOp (s : Chip8) : Nat :=
  (s.ram.getD s.PC 0 <<< 8) ||| s.ram.getD (s.PC + 1) 0

/-- `emulate_instruction`: fetch, advance PC by 2, then dispatch. -/
def emulate_instruction (s : Chip8) : Chip8 :=
  exec { s with PC := u16 (s.PC + 2) } (fetchOp s)

/-- The 16-glyph, 5-bytes-per-glyph font table of `init_chip8`. -/
def font : List Nat :=
  [0xF0, 0x90, 0x90, 0x90, 0xF0,
   0x20, 0x60, 0x20, 0x20, 0x70,
   0xF0, 0x10, 0xF0, 0x80, 0xF0,
   0xF0, 0x10, 0xF0, 0x10, 0xF0,
   0x90, 0x90, 0xF0, 0x10, 0x10,
   0xF0, 0x80, 0xF0, 0x10, 0xF0,
   0xF0, 0x80, 0xF0, 0x90, 0xF0,
   0xF0, 0x10, 0x20, 0x40, 0x40,
   0xF0, 0x90, 0xF0, 0x90, 0xF0,
   0xF0, 0x90, 0xF0, 0x10, 0xF0,
   0xF0, 0x90, 0xF0, 0x90, 0x90,
   0xE0, 0x90, 0xE0, 0x90, 0xE0,
   0xF0, 0x80, 0x80, 0x80, 0xF0,
   0xE0, 0x90, 0x90, 0x90, 0xE0,
   0xF0, 0x80, 0xF0, 0x80, 0xF0,
   0xF0, 0x80, 0xF0, 0x80, 0x80]

/-- `memcpy(&chip8->ram[0], font, sizeof(font))`: overwrite the first
80 bytes of ram with the font table. -/
def writeFont (ram : List Nat) : List Nat :=
  font ++ ram.drop font.length

/-- `fread(&chip8->ram[entry_point], rom_size, 1, rom)`: copy the ROM
bytes into ram starting at the entry point `0x200`. -/
def writeRom (ram rom : List Nat) : List Nat :=
  ram.take 0x200 ++ rom ++ ram.drop (0x200 + rom.length)

/-- Result of `init_chip8` (file-open and `fread` I/O failures are
outside the machine model; the size check is the `RomTooLarge`
condition). -/
inductive LoadResult where
  | ok
  | romTooLarge
deriving DecidableEq, Repr

/-- `init_chip8`: write the font, then check
`rom_size > sizeof ram - entry_point` (4096 - 0x200); on failure
return early (the font bytes are already in ram), on success copy the
ROM and set PC to the entry point, SP to 0, state to RUNNING. -/
def init_chip8 (c : Chip8) (rom : List Nat) : LoadResult × Chip8 :=
  let c1 := { c with ram := writeFont c.ram }
  if rom.length > 4096 - 0x200 then (LoadResult.romTooLarge, c1)
  else (LoadResult.ok,
    { c1 with ram := writeRom c1.ram rom, state := EmuState.RUNNING,
              PC := 0x200, SP := 0 })

/-- The machine object of `main` before `init_chip8` runs:
`chip8_t chip8 = {0}` (note enum value 0 is QUIT). -/
def blankChip8 : Chip8 where
  state := EmuState.QUIT
  ram := List.replicate 4096 0
  display := List.replicate 2048 false
  stack := List.replicate 12 0
  SP := 0
  V := List.replicate 16 0
  I := 0
  PC := 0
  delay_timer := 0
  sound_timer := 0
  keypad := List.replicate 16 false
  rand := []
  iOob := false
  keyOob := false
  stackOob := false

/-- A freshly initialized machine ready to run: `blankChip8` after a
successful `init_chip8` with an empty ROM. -/
def zeroChip8 : Chip8 := (init_chip8 blankChip8 []).2

/-- A running machine with PC at 0 and the registers, keypad and stack
at their machine sizes; concrete test states override `ram`, `display`
and individual registers.  (Claims quantified over every machine state
are instantiated here at states with short `ram`/`display` lists; the
executor semantics do not depend on the unaccessed tail of either
array.) -/
def miniChip8 : Chip8 where
  state := EmuState.RUNNING
  ram := []
  display := []
  stack := List.replicate 12 0
  SP := 0
  V := List.replicate 16 0
  I := 0
  PC := 0
  delay_timer := 0
  sound_timer := 0
  keypad := List.replicate 16 false
  rand := []
  iOob := false
  keyOob := false
  stackOob := false

/-! ### Concrete test states for the claim theorems -/

/-- Draw state: `0xD011` (draw the 1-row sprite for `(V0, V1)`) at
PC, the sprite byte `0x80` at `I = 2`, and the screen pixel at (0,0)
already set. -/
def sDraw1 : Chip8 :=
  { miniChip8 with ram := [0xD0, 0x11, 0x80], I := 2, display := [true] }

/-- Wait-for-key state: `0xF30A` at PC and only key `0xF` pressed. -/
def sWaitKey : Chip8 :=
  { miniChip8 with ram := [0xF3, 0x0A],
                   keypad := (List.replicate 16 false).set 0xF true }

/-- Return-with-empty-stack state: `0x00EE` at PC and `SP = 0`. -/
def sRet0 : Chip8 := { miniChip8 with ram := [0x00, 0xEE] }

/-- Call-with-full-stack state: `0x2ABC` at PC and `SP = 12`
(the stack capacity). -/
def sCallFull : Chip8 := { miniChip8 with ram := [0x2A, 0xBC], SP := 12 }

/-- Skip-if-key state with an out-of-range key: `0xE09E` at PC and
`V0 = 0x10 > 0xF`. -/
def sKeyOob : Chip8 :=
  { miniChip8 with ram := [0xE0, 0x9E], V := (List.replicate 16 0).set 0 0x10 }

/-- Add-registers state with the flag register as destination:
`VF = 250`, `V0 = 10`, for opcode `0x8F04`. -/
def sAddXF : Chip8 :=
  { miniChip8 with V := ((List.replicate 16 0).set 0xF 250).set 0x0 10 }

/-- Add-registers state with the flag register as source:
`V0 = 250`, `VF = 10`, for opcode `0x80F4`. -/
def sAddYF : Chip8 :=
  { miniChip8 with V := ((List.replicate 16 0).set 0x0 250).set 0xF 10 }

/-- Add-registers state away from the flag register:
`V1 = 250`, `V2 = 10`, for opcode `0x8124`. -/
def sAddOk : Chip8 :=
  { miniChip8 with V := ((List.replicate 16 0).set 0x1 250).set 0x2 10 }

/-- Subtract state with the flag register as destination:
`VF = 5`, `V1 = 3`, for opcode `0x8F15`. -/
def sSubXF : Chip8 :=
  { miniChip8 with V := ((List.replicate 16 0).set 0xF 5).set 0x1 3 }

/-- Subtract state with the flag register as source:
`V0 = 5`, `VF = 3`, for opcode `0x80F5`. -/
def sSubYF : Chip8 :=
  { miniChip8 with V := ((List.replicate 16 0).set 0x0 5).set 0xF 3 }

/-- Subtract state away from the flag register:
`V1 = 5`, `V2 = 3`, for opcode `0x8125`. -/
def sSubOk : Chip8 :=
  { miniChip8 with V := ((List.replicate 16 0).set 0x1 5).set 0x2 3 }

/-- Draw state near the right edge: `V0 = 60`, `V1 = 0`, the all-set
sprite row `0xFF` at `I = 0`, for opcode `0xD011`. -/
def sDrawEdge : Chip8 :=
  { miniChip8 with ram := [0xFF], display := List.replicate 2048 false,
                   V := (List.replicate 16 0).set 0 60 }

/-- Unknown-opcode state: `0x0123` at PC (a `0xNNN` machine-code-call
opcode, unimplemented). -/
def sUnknown : Chip8 := { miniChip8 with ram := [0x01, 0x23] }

/-- ROM longer than `4096 - 0x200` bytes, for the loader claim. -/
def bigRom : List Nat := List.replicate 3585 7

/-- ROM whose program sets `I := 0xFFF` and then executes the
store-BCD opcode `0xF133`, whose writes to `I+1` and `I+2` fall
outside the 4096-byte memory image. -/
def romOob : List Nat := [0xAF, 0xFF, 0xF1, 0x33]

/-- The memory image after loading `romOob`. -/
def ramOob : List Nat := writeRom (writeFont (List.replicate 4096 0)) romOob

/-- The machine produced by `init_chip8 blankChip8 romOob`. -/
def s0Oob : Chip8 :=
  { blankChip8 with ram := ramOob, state := EmuState.RUNNING,
                    PC := 0x200, SP := 0 }

/-! ### List access helper lemmas -/

theorem getD_set_ne {α} (l : List α) (i j : Nat) (a d : α) (h : i ≠ j) :
    (l.set i a).getD j d = l.getD j d := by
  simp [List.getElem?_set_ne h]

theorem getD_set_self {α} (l : List α) (i : Nat) (a d : α) (h : i < l.length) :
    (l.set i a).getD i d = a := by
  simp [List.getElem?_set_self h]

/-! ### Claim theorems -/

/-- C1: the draw handler resets `VF` to 0 but, contrary to the claim
(and to the comment block above `case 0xD` in the source), it never
sets `VF` to 1: here the draw instruction XOR-clears the
previously-set pixel at (0,0) — a true-to-false transition — yet `VF`
is 0 after the draw, where the claim requires 1. -/
theorem draw_collision_leaves_flag_clear :
    sDraw1.display.getD 0 false = true ∧
    (emulate_instruction sDraw1).display.getD 0 false = false ∧
    getV (emulate_instruction sDraw1) 0xF = 0 := by decide

/-- C2: the wait-for-key scan runs `for (key = 0; key < 0xF; key++)`,
covering keypad indices 0..14 only: with only key `0xF` pressed, the
claim requires the key to be stored in the destination register and PC
to advance, but the code treats it as "no key pressed", rewinds PC by
2 (back to its pre-fetch value) and leaves every register unchanged. -/
theorem wait_for_key_misses_highest_key :
    sWaitKey.keypad.getD 0xF false = true ∧
    (emulate_instruction sWaitKey).PC = sWaitKey.PC ∧
    (emulate_instruction sWaitKey).V = sWaitKey.V := by decide

/-- C4: neither stack opcode checks the stack pointer: a return
executed at `SP = 0` wraps the `uint8_t` stack pointer to 255 (far
outside `[0, 12]`) and reads `stack[255]` out of bounds, and a call
executed at `SP = 12` (the stack capacity) writes `stack[12]` out of
bounds and leaves `SP = 13`; in both cases the machine keeps RUNNING —
there is no error policy and no `Halted` transition. -/
theorem stack_pointer_invariant_violated :
    (emulate_instruction sRet0).SP = 255 ∧
    (emulate_instruction sRet0).stackOob = true ∧
    (emulate_instruction sRet0).state = EmuState.RUNNING ∧
    (emulate_instruction sCallFull).SP = 13 ∧
    (emulate_instruction sCallFull).stackOob = true ∧
    (emulate_instruction sCallFull).state = EmuState.RUNNING := by decide

/-- C5: the skip-if-key opcodes index `keypad[VX]` with the full 8-bit
register value and no bounds check: with `V0 = 0x10` the lookup runs
off the end of the 16-entry keypad array (the out-of-bounds branch of
the embedding is taken) instead of applying a safe fallback. -/
theorem skip_if_key_indexes_out_of_bounds :
    getV sKeyOob 0 = 0x10 ∧
    (emulate_instruction sKeyOob).keyOob = true := by decide

/-- C6 counterexample: the add-registers claim fails when a selector
is the flag register, because the code writes the carry into `VF`
*before* the addition `V[X] += V[Y]`: with `X = 0xF` (`VF = 250`,
`V0 = 10`, opcode `0x8F04`) the destination ends up `1 + 10 = 11`, not
`(250 + 10) % 256 = 4`; with `Y = 0xF` (`V0 = 250`, `VF = 10`, opcode
`0x80F4`) it ends up `250 + 1 = 251`, not 4. -/
theorem add_registers_flag_operand_wrong :
    getV sAddXF 0xF = 250 ∧ getV sAddXF 0x0 = 10 ∧
    ¬ getV (exec sAddXF 0x8F04) 0xF = (250 + 10) % 256 ∧
    getV sAddYF 0x0 = 250 ∧ getV sAddYF 0xF = 10 ∧
    ¬ getV (exec sAddYF 0x80F4) 0x0 = (250 + 10) % 256 := by decide

/-- C6 (amended): for register selectors other than the flag register
(`X ≠ 0xF` and `Y ≠ 0xF`), the add-registers instruction `0x8XY4`
leaves the destination equal to `(VX + VY) mod 256` and `VF = 1` iff
`VX + VY > 255`. -/
theorem add_registers_result_and_carry (s : Chip8) (op : Nat)
    (hV : s.V.length = 16)
    (hhi : (op >>> 12) &&& 0xF = 0x8) (hlo : instN op = 0x4)
    (hX : instX op ≠ 0xF) (hY : instY op ≠ 0xF) :
    getV (exec s op) (instX op) =
      (getV s (instX op) + getV s (instY op)) % 256 ∧
    getV (exec s op) 0xF =
      (if getV s (instX op) + getV s (instY op) > 255 then 1 else 0) := by
  have hXlt : instX op < 16 := Nat.lt_succ_of_le Nat.and_le_right
  simp only [exec, hhi]
  norm_num [exec8, hlo]
  constructor
  · rw [getV, getD_set_self _ _ _ _ (by simp [hV, hXlt]),
        getV, getD_set_ne _ _ _ _ _ (Ne.symm hX),
        getV, getD_set_ne _ _ _ _ _ (Ne.symm hY)]
    rfl
  · rw [getV, getD_set_ne _ _ _ _ _ hX,
        getD_set_self _ _ _ _ (by simp [hV])]

theorem add_registers_result_and_carry_witness :
    (sAddOk.V.length = 16 ∧ (0x8124 >>> 12) &&& 0xF = 0x8 ∧
     instN 0x8124 = 0x4 ∧ instX 0x8124 ≠ 0xF ∧ instY 0x8124 ≠ 0xF) ∧
    (getV (exec sAddOk 0x8124) (instX 0x8124) =
       (getV sAddOk (instX 0x8124) + getV sAddOk (instY 0x8124)) % 256 ∧
     getV (exec sAddOk 0x8124) 0xF =
       (if getV sAddOk (instX 0x8124) + getV sAddOk (instY 0x8124) > 255
        then 1 else 0)) :=
  ⟨by decide,
   add_registers_result_and_carry sAddOk 0x8124 (by decide) (by decide)
     (by decide) (by decide) (by decide)⟩

/-- Helper for the unknown-opcode claim: the dispatch leaves the state
untouched on every opcode `recognized` rejects. -/
theorem exec_unrecognized (s : Chip8) (op : Nat)
    (h : recognized op = false) : exec s op = s := by
  by_cases h0 : (op >>> 12) &&& 0xF = 0x0
  · simp [recognized, h0] at h
    simp [exec, h0, exec0, h.1, h.2]
  · by_cases h8 : (op >>> 12) &&& 0xF = 0x8
    · simp [recognized, h0, h8] at h
      obtain ⟨hle, hE⟩ := h
      simp [exec, h8, exec8, hE,
            show instN op ≠ 0x0 by omega, show instN op ≠ 0x1 by omega,
            show instN op ≠ 0x2 by omega, show instN op ≠ 0x3 by omega,
            show instN op ≠ 0x4 by omega, show instN op ≠ 0x5 by omega,
            show instN op ≠ 0x6 by omega, show instN op ≠ 0x7 by omega]
    · by_cases hE : (op >>> 12) &&& 0xF = 0xE
      · simp [recognized, h0, h8, hE] at h
        simp [exec, hE, execE, h.1, h.2]
      · by_cases hF : (op >>> 12) &&& 0xF = 0xF
        · simp [recognized, h0, h8, hE, hF] at h
          obtain ⟨⟨⟨⟨⟨⟨⟨⟨n07, n0A⟩, n15⟩, n18⟩, n1E⟩, n29⟩, n33⟩, n55⟩, n65⟩ := h
          simp [exec, hF, execF, n07, n0A, n15, n18, n1E, n29, n33, n55, n65]
        · simp [recognized, h0, h8, hE, hF] at h

/-- C9: an opcode the nested dispatch does not recognize is a silent
no-op: executing it changes no machine state — registers, I, SP,
stack, timers, framebuffer, memory, keypad, run state — beyond the PC
advance by 2 already performed by the decode step. -/
theorem unknown_opcode_is_noop (s : Chip8)
    (h : recognized (fetchOp s) = false) :
    emulate_instruction s = { s with PC := u16 (s.PC + 2) } := by
  rw [emulate_instruction]
  exact exec_unrecognized _ _ h

theorem unknown_opcode_is_noop_witness :
    recognized (fetchOp sUnknown) = false ∧
    emulate_instruction sUnknown = { sUnknown with PC := u16 (sUnknown.PC + 2) } :=
  ⟨by decide, unknown_opcode_is_noop sUnknown (by decide)⟩

/-- C7 counterexample: the subtract claim fails when a selector is the
flag register, because the code writes the borrow flag into `VF`
*before* the subtraction `V[X] -= V[Y]`: with `X = 0xF` (`VF = 5`,
`V1 = 3`, opcode `0x8F15`) the destination ends up `(1 - 3) mod 256 =
254`, not `5 - 3 = 2`; with `Y = 0xF` (`V0 = 5`, `VF = 3`, opcode
`0x80F5`) it ends up `5 - 1 = 4`, not 2. -/
theorem subtract_flag_operand_wrong :
    getV sSubXF 0xF = 5 ∧ getV sSubXF 0x1 = 3 ∧
    ¬ getV (exec sSubXF 0x8F15) 0xF = (5 + 256 - 3) % 256 ∧
    getV sSubYF 0x0 = 5 ∧ getV sSubYF 0xF = 3 ∧
    ¬ getV (exec sSubYF 0x80F5) 0x0 = (5 + 256 - 3) % 256 := by decide

/-- C7 (amended): for register selectors other than the flag register
(`X ≠ 0xF` and `Y ≠ 0xF`), the subtract instruction `0x8XY5` compares
the *values* of the selected registers — `VF = 1` iff `VX ≥ VY` before
the subtraction — and leaves the destination equal to
`(VX − VY) mod 256`. -/
theorem subtract_result_and_borrow (s : Chip8) (op : Nat)
    (hV : s.V.length = 16)
    (hhi : (op >>> 12) &&& 0xF = 0x8) (hlo : instN op = 0x5)
    (hX : instX op ≠ 0xF) (hY : instY op ≠ 0xF)
    (ha : getV s (instX op) ≤ 255) (hb : getV s (instY op) ≤ 255) :
    (getV (exec s op) (instX op) : Int) =
      ((getV s (instX op) : Int) - (getV s (instY op) : Int)) % 256 ∧
    getV (exec s op) 0xF =
      (if getV s (instX op) ≥ getV s (instY op) then 1 else 0) := by
  have hXlt : instX op < 16 := Nat.lt_succ_of_le Nat.and_le_right
  have hmain :
      getV (exec s op) (instX op) =
        (getV s (instX op) + 256 - getV s (instY op)) % 256 ∧
      getV (exec s op) 0xF =
        (if getV s (instX op) ≥ getV s (instY op) then 1 else 0) := by
    simp only [exec, hhi]
    norm_num [exec8, hlo]
    constructor
    · rw [getV, getD_set_self _ _ _ _ (by simp [hV, hXlt]),
          getV, getD_set_ne _ _ _ _ _ (Ne.symm hX),
          getV, getD_set_ne _ _ _ _ _ (Ne.symm hY)]
      rfl
    · rw [getV, getD_set_ne _ _ _ _ _ hX,
          getD_set_self _ _ _ _ (by simp [hV])]
  refine ⟨?_, hmain.2⟩
  rw [hmain.1]
  omega

/-! ### Bounds lemmas for the accesses indexed through `I` -/

theorem ramWriteI_fst_length (ram : List Nat) (i v : Nat) :
    (ramWriteI ram i v).1.length = ram.length := by
  rw [ramWriteI]; split <;> simp

theorem ramWriteI_flag (ram : List Nat) (i v : Nat) (h : i < ram.length) :
    (ramWriteI ram i v).2 = false := by
  rw [ramWriteI]; simp [h]

theorem ramReadI_flag (ram : List Nat) (i : Nat) (h : i < ram.length) :
    (ramReadI ram i).2 = false := by
  rw [ramReadI, List.getElem?_eq_getElem h]

theorem drawRowsFrom_flag (ram : List Nat) (I xs xe : Nat) :
    ∀ (cnt : Nat) (disp : List Bool) (y r : Nat),
      (∀ k, k < cnt → I + r + k < ram.length) →
      (drawRowsFrom ram disp I xs xe y r cnt).2 = false := by
  intro cnt
  induction cnt with
  | zero => intro disp y r _; rfl
  | succ n ih =>
    intro disp y r h
    simp only [drawRowsFrom]
    rw [ramReadI_flag _ _ (by have h2 := h 0 (by omega); omega),
        ih _ _ _ (fun k hk => by have h2 := h (k + 1) (by omega); omega)]
    rfl

theorem storeRegs_flag (V : List Nat) (I : Nat) :
    ∀ (cnt : Nat) (ram : List Nat) (i : Nat),
      (∀ k, k < cnt → I + i + k < ram.length) →
      (storeRegs ram V I i cnt).1.length = ram.length ∧
      (storeRegs ram V I i cnt).2 = false := by
  intro cnt
  induction cnt with
  | zero => intro ram i _; exact ⟨rfl, rfl⟩
  | succ n ih =>
    intro ram i h
    have hw : I + i < ram.length := by have h2 := h 0 (by omega); omega
    have hlen := ramWriteI_fst_length ram (I + i) (V.getD i 0)
    have hrec := ih (ramWriteI ram (I + i) (V.getD i 0)).1 (i + 1)
      (fun k hk => by have h2 := h (k + 1) (by omega); rw [hlen]; omega)
    simp only [storeRegs]
    constructor
    · rw [hrec.1, hlen]
    · rw [ramWriteI_flag _ _ _ hw, hrec.2]
      rfl

theorem loadRegs_flag (ram : List Nat) (I : Nat) :
    ∀ (cnt : Nat) (V : List Nat) (i : Nat),
      (∀ k, k < cnt → I + i + k < ram.length) →
      (loadRegs ram V I i cnt).2 = false := by
  intro cnt
  induction cnt with
  | zero => intro V i _; rfl
  | succ n ih =>
    intro V i h
    simp only [loadRegs]
    rw [ramReadI_flag _ _ (by have h2 := h 0 (by omega); omega),
        ih _ _ (fun k hk => by have h2 := h (k + 1) (by omega); omega)]
    rfl

theorem exec0_iOob (s : Chip8) (op : Nat) (h : s.iOob = false) :
    (exec0 s op).iOob = false := by
  rw [exec0]
  split_ifs
  · exact h
  · dsimp only
    split <;> exact h
  · exact h

theorem execCall_iOob (s : Chip8) (op : Nat) (h : s.iOob = false) :
    (execCall s op).iOob = false := h

theorem exec8_iOob (s : Chip8) (op : Nat) (h : s.iOob = false) :
    (exec8 s op).iOob = false := by
  by_cases h0 : instN op = 0x0
  · simp [exec8, h0, h]
  by_cases h1 : instN op = 0x1
  · simp [exec8, h0, h1, h]
  by_cases h2 : instN op = 0x2
  · simp [exec8, h0, h1, h2, h]
  by_cases h3 : instN op = 0x3
  · simp [exec8, h0, h1, h2, h3, h]
  by_cases h4 : instN op = 0x4
  · simp [exec8, h0, h1, h2, h3, h4, h]
  by_cases h5 : instN op = 0x5
  · simp [exec8, h0, h1, h2, h3, h4, h5, h]
  by_cases h6 : instN op = 0x6
  · simp [exec8, h0, h1, h2, h3, h4, h5, h6, h]
  by_cases h7 : instN op = 0x7
  · simp [exec8, h0, h1, h2, h3, h4, h5, h6, h7, h]
  by_cases hE : instN op = 0xE
  · simp [exec8, h0, h1, h2, h3, h4, h5, h6, h7, hE, h]
  simp [exec8, h0, h1, h2, h3, h4, h5, h6, h7, hE, h]

theorem execE_iOob (s : Chip8) (op : Nat) (h : s.iOob = false) :
    (execE s op).iOob = false := by
  rw [execE]
  split_ifs <;> (try split) <;> (try split_ifs) <;> exact h

theorem execDraw_iOob (s : Chip8) (op : Nat) (hram : s.ram.length = 4096)
    (hI : s.I ≤ 4080) (h : s.iOob = false) :
    (execDraw s op).iOob = false := by
  have hN : instN op ≤ 15 := Nat.and_le_right
  rw [execDraw]
  dsimp only
  rw [h, Bool.false_or]
  exact drawRowsFrom_flag _ _ _ _ _ _ _ _
    (fun k hk => by rw [hram]; omega)

theorem execF_iOob (s : Chip8) (op : Nat) (hram : s.ram.length = 4096)
    (hI : s.I ≤ 4080) (h : s.iOob = false) :
    (execF s op).iOob = false := by
  have hX : instX op ≤ 15 := Nat.and_le_right
  by_cases h07 : instNN op = 0x07
  · simp [execF, h07, h]
  by_cases h0A : instNN op = 0x0A
  · simp only [execF, h07, h0A]
    norm_num
    split <;> exact h
  by_cases h15 : instNN op = 0x15
  · simp [execF, h07, h0A, h15, h]
  by_cases h18 : instNN op = 0x18
  · simp [execF, h07, h0A, h15, h18, h]
  by_cases h1E : instNN op = 0x1E
  · simp [execF, h07, h0A, h15, h18, h1E, h]
  by_cases h29 : instNN op = 0x29
  · simp [execF, h07, h0A, h15, h18, h1E, h29, h]
  by_cases h33 : instNN op = 0x33
  · simp [execF, h07, h0A, h15, h18, h1E, h29, h33, h]
    refine ⟨⟨ramWriteI_flag _ _ _ ?_, ramWriteI_flag _ _ _ ?_⟩,
            ramWriteI_flag _ _ _ ?_⟩
    · rw [hram]; omega
    · rw [ramWriteI_fst_length, hram]; omega
    · rw [ramWriteI_fst_length, ramWriteI_fst_length, hram]; omega
  by_cases h55 : instNN op = 0x55
  · simp [execF, h07, h0A, h15, h18, h1E, h29, h33, h55, h]
    exact (storeRegs_flag s.V s.I (instX op + 1) s.ram 0
      (fun k hk => by rw [hram]; omega)).2
  by_cases h65 : instNN op = 0x65
  · simp [execF, h07, h0A, h15, h18, h1E, h29, h33, h55, h65, h]
    exact loadRegs_flag s.ram s.I (instX op + 1) s.V 0
      (fun k hk => by rw [hram]; omega)
  simp [execF, h07, h0A, h15, h18, h1E, h29, h33, h55, h65, h]

/-- On any opcode, the dispatch performs no out-of-bounds memory
access through `I` as long as `I ≤ 4080` (the largest index any
handler adds to `I` is 15). -/
theorem exec_iOob (s : Chip8) (op : Nat) (hram : s.ram.length = 4096)
    (hI : s.I ≤ 4080) (h : s.iOob = false) : (exec s op).iOob = false := by
  by_cases g0 : (op >>> 12) &&& 0xF = 0x0
  · simp only [exec, g0]
    norm_num
    exact exec0_iOob s op h
  by_cases g1 : (op >>> 12) &&& 0xF = 0x1
  · simp [exec, g0, g1, h]
  by_cases g2 : (op >>> 12) &&& 0xF = 0x2
  · simp only [exec, g0, g1, g2]
    norm_num
    exact execCall_iOob s op h
  by_cases g3 : (op >>> 12) &&& 0xF = 0x3
  · simp only [exec, g0, g1, g2, g3]
    norm_num
    split <;> exact h
  by_cases g4 : (op >>> 12) &&& 0xF = 0x4
  · simp only [exec, g0, g1, g2, g3, g4]
    norm_num
    split <;> exact h
  by_cases g5 : (op >>> 12) &&& 0xF = 0x5
  · simp only [exec, g0, g1, g2, g3, g4, g5]
    norm_num
    split <;> exact h
  by_cases g6 : (op >>> 12) &&& 0xF = 0x6
  · simp [exec, g0, g1, g2, g3, g4, g5, g6, h]
  by_cases g7 : (op >>> 12) &&& 0xF = 0x7
  · simp [exec, g0, g1, g2, g3, g4, g5, g6, g7, h]
  by_cases g8 : (op >>> 12) &&& 0xF = 0x8
  · simp only [exec, g0, g1, g2, g3, g4, g5, g6, g7, g8]
    norm_num
    exact exec8_iOob s op h
  by_cases g9 : (op >>> 12) &&& 0xF = 0x9
  · simp only [exec, g0, g1, g2, g3, g4, g5, g6, g7, g8, g9]
    norm_num
    split <;> exact h
  by_cases gA : (op >>> 12) &&& 0xF = 0xA
  · simp [exec, g0, g1, g2, g3, g4, g5, g6, g7, g8, g9, gA, h]
  by_cases gB : (op >>> 12) &&& 0xF = 0xB
  · simp [exec, g0, g1, g2, g3, g4, g5, g6, g7, g8, g9, gA, gB, h]
  by_cases gC : (op >>> 12) &&& 0xF = 0xC
  · simp [exec, g0, g1, g2, g3, g4, g5, g6, g7, g8, g9, gA, gB, gC, h]
  by_cases gD : (op >>> 12) &&& 0xF = 0xD
  · simp only [exec, g0, g1, g2, g3, g4, g5, g6, g7, g8, g9, gA, gB, gC, gD]
    norm_num
    exact execDraw_iOob s op hram hI h
  by_cases gE : (op >>> 12) &&& 0xF = 0xE
  · simp only [exec, g0, g1, g2, g3, g4, g5, g6, g7, g8, g9, gA, gB, gC, gD, gE]
    norm_num
    exact execE_iOob s op h
  by_cases gF : (op >>> 12) &&& 0xF = 0xF
  · simp only [exec, g0, g1, g2, g3, g4, g5, g6, g7, g8, g9, gA, gB, gC, gD, gE,
               gF]
    norm_num
    exact execF_iOob s op hram hI h
  simp [exec, g0, g1, g2, g3, g4, g5, g6, g7, g8, g9, gA, gB, gC, gD, gE, gF, h]

/-- C3 counterexample: `init_chip8` writes the font table into memory
*before* performing the size check, so a too-large ROM fails with the
RomTooLarge condition but leaves the memory image mutated: byte 0 of
ram goes from 0 (its pre-load value in the zero-initialized machine of
`main`) to `0xF0`, the first font byte. -/
theorem load_too_large_still_writes_font :
    (init_chip8 blankChip8 bigRom).1 = LoadResult.romTooLarge ∧
    blankChip8.ram.getD 0 0 = 0 ∧
    (init_chip8 blankChip8 bigRom).2.ram.getD 0 0 = 0xF0 := by
  have hlen : bigRom.length = 3585 := by rw [bigRom, List.length_replicate]
  refine ⟨?_, ?_, ?_⟩
  · simp [init_chip8, hlen]
  · have h : blankChip8.ram = List.replicate 4096 0 := rfl
    rw [h, List.getD_eq_getElem?_getD, List.getElem?_replicate_of_lt (by norm_num)]
    rfl
  · simp [init_chip8, hlen, writeFont, font]

/-- C3 (amended): for every ROM longer than `capacity − entry_point`
(4096 − 0x200 = 3584 bytes), `init_chip8` fails with the RomTooLarge
condition and mutates nothing except the font region of the memory
image: the result is exactly the input machine with the 80 font bytes
written over the start of ram — registers, PC, SP, run state, and
every ram byte from offset 80 on keep their pre-load values. -/
theorem load_too_large_writes_only_font (c : Chip8) (rom : List Nat)
    (h : rom.length > 4096 - 0x200) :
    init_chip8 c rom =
      (LoadResult.romTooLarge, { c with ram := writeFont c.ram }) := by
  simp [init_chip8, h]

theorem load_too_large_writes_only_font_witness :
    bigRom.length > 4096 - 0x200 ∧
    init_chip8 blankChip8 bigRom =
      (LoadResult.romTooLarge, { blankChip8 with ram := writeFont blankChip8.ram }) :=
  ⟨by rw [bigRom, List.length_replicate]; norm_num,
   load_too_large_writes_only_font blankChip8 bigRom
     (by rw [bigRom, List.length_replicate]; norm_num)⟩

/-- The inner draw loop touches only the pixel indices
`y * 64 + x`, …, `y * 64 + x + cnt - 1` of its row. -/
theorem drawRowFrom_getD_outside (sb y : Nat) :
    ∀ (cnt : Nat) (disp : List Bool) (x j p : Nat),
      (∀ k, k < cnt → p ≠ y * 64 + (x + k)) →
      (drawRowFrom disp sb y x j cnt).getD p false = disp.getD p false := by
  intro cnt
  induction cnt with
  | zero => intro disp x j p _; rfl
  | succ n ih =>
    intro disp x j p h
    simp only [drawRowFrom]
    rw [ih _ _ _ _ (fun k hk => by have h2 := h (k + 1) (by omega); omega)]
    exact getD_set_ne _ _ _ _ _ (by have h2 := h 0 (by omega); omega)

/-- The outer draw loop touches only pixel indices inside the
rectangle of rows `y`, …, `y + cnt - 1` and columns `xs`, …,
`xe - 1`. -/
theorem drawRowsFrom_getD_outside (ram : List Nat) (I xs xe : Nat) :
    ∀ (cnt : Nat) (disp : List Bool) (y r p : Nat),
      (∀ k m, k < cnt → m < xe - xs → p ≠ (y + k) * 64 + (xs + m)) →
      ((drawRowsFrom ram disp I xs xe y r cnt).1).getD p false =
        disp.getD p false := by
  intro cnt
  induction cnt with
  | zero => intro disp y r p _; rfl
  | succ n ih =>
    intro disp y r p h
    simp only [drawRowsFrom]
    rw [ih _ _ _ _ (fun k m hk hm => by
          have h2 := h (k + 1) m (by omega) hm
          have e : y + 1 + k = y + (k + 1) := by omega
          rw [e]; exact h2)]
    exact drawRowFrom_getD_outside _ _ _ _ _ _ _
      (fun m hm => by have h2 := h 0 m (by omega) hm; omega)

/-- C8: the draw instruction reduces the starting column and row
modulo 64 and 32 and clips the sprite body at the right and bottom
edges: every framebuffer cell whose column is left of the start, at or
beyond `min(start + 8, 64)`, or whose row is above the start or at or
beyond `min(start + N, 32)`, is unchanged — clipped bits are dropped
and never wrap to the opposite edge. -/
theorem draw_clips_and_never_wraps (s : Chip8) (op : Nat)
    (hhi : (op >>> 12) &&& 0xF = 0xD) (col row : Nat) (hcol : col < 64)
    (hout : col < getV s (instX op) % 64 ∨
            min (getV s (instX op) % 64 + 8) 64 ≤ col ∨
            row < getV s (instY op) % 32 ∨
            min (getV s (instY op) % 32 + instN op) 32 ≤ row) :
    (exec s op).display.getD (row * 64 + col) false =
      s.display.getD (row * 64 + col) false := by
  have hd : exec s op = execDraw s op := by simp [exec, hhi]
  rw [hd]
  dsimp only [execDraw]
  apply drawRowsFrom_getD_outside
  intro k m hk hm
  omega

theorem draw_clips_and_never_wraps_witness :
    ((0xD011 >>> 12) &&& 0xF = 0xD ∧ (59 : Nat) < 64 ∧
     (59 < getV sDrawEdge (instX 0xD011) % 64 ∨
      min (getV sDrawEdge (instX 0xD011) % 64 + 8) 64 ≤ 59 ∨
      0 < getV sDrawEdge (instY 0xD011) % 32 ∨
      min (getV sDrawEdge (instY 0xD011) % 32 + instN 0xD011) 32 ≤ 0)) ∧
    (exec sDrawEdge 0xD011).display.getD (0 * 64 + 59) false =
      sDrawEdge.display.getD (0 * 64 + 59) false :=
  ⟨by decide,
   draw_clips_and_never_wraps sDrawEdge 0xD011 (by decide) 59 0 (by decide)
     (by decide)⟩

theorem subtract_result_and_borrow_witness :
    (sSubOk.V.length = 16 ∧ (0x8125 >>> 12) &&& 0xF = 0x8 ∧
     instN 0x8125 = 0x5 ∧ instX 0x8125 ≠ 0xF ∧ instY 0x8125 ≠ 0xF ∧
     getV sSubOk (instX 0x8125) ≤ 255 ∧ getV sSubOk (instY 0x8125) ≤ 255) ∧
    ((getV (exec sSubOk 0x8125) (instX 0x8125) : Int) =
       ((getV sSubOk (instX 0x8125) : Int) -
        (getV sSubOk (instY 0x8125) : Int)) % 256 ∧
     getV (exec sSubOk 0x8125) 0xF =
       (if getV sSubOk (instX 0x8125) ≥ getV sSubOk (instY 0x8125)
        then 1 else 0)) :=
  ⟨by decide,
   subtract_result_and_borrow sSubOk 0x8125 (by decide) (by decide) (by decide)
     (by decide) (by decide) (by decide) (by decide)⟩

theorem writeFont_length (ram : List Nat) (h : 80 ≤ ram.length) :
    (writeFont ram).length = ram.length := by
  have hf : font.length = 80 := rfl
  rw [writeFont, List.length_append, List.length_drop, hf]
  omega

theorem ramWriteI_flag_oob (ram : List Nat) (i v : Nat) (h : ram.length ≤ i) :
    (ramWriteI ram i v).2 = true := by
  rw [ramWriteI, if_neg (by omega)]

theorem ramOob_length : ramOob.length = 4096 := by
  have h1 : (writeFont (List.replicate 4096 0)).length = 4096 := by
    rw [writeFont_length _ (by rw [List.length_replicate]; norm_num),
        List.length_replicate]
  rw [ramOob, writeRom, List.length_append, List.length_append,
      List.length_take, List.length_drop, h1,
      show romOob.length = 4 from rfl]
  omega

/-- Bytes of the loaded program are found at `entry_point + k`. -/
theorem writeRom_getD (ram rom : List Nat) (k : Nat)
    (hram : ram.length = 4096) (hk : k < rom.length) :
    (writeRom ram rom).getD (0x200 + k) 0 = rom.getD k 0 := by
  have ht : (ram.take 0x200).length = 0x200 := by
    rw [List.length_take, hram]
    omega
  rw [writeRom, List.getD_eq_getElem?_getD, List.append_assoc,
      List.getElem?_append_right (by rw [ht]; omega), ht]
  have e : 0x200 + k - 0x200 = k := by omega
  rw [e, List.getElem?_append_left hk, List.getD_eq_getElem?_getD]

theorem writeFont_replicate_length :
    (writeFont (List.replicate (4096 : Nat) (0 : Nat))).length = 4096 := by
  rw [writeFont_length _ (by rw [List.length_replicate]; norm_num),
      List.length_replicate]

theorem s0Oob_fetch : fetchOp s0Oob = 0xAFFF := by
  have e0 : ramOob.getD (0x200 + 0) 0 = romOob.getD 0 0 :=
    writeRom_getD _ _ 0 writeFont_replicate_length (by norm_num [romOob])
  have e1 : ramOob.getD (0x200 + 1) 0 = romOob.getD 1 0 :=
    writeRom_getD _ _ 1 writeFont_replicate_length (by norm_num [romOob])
  norm_num [romOob] at e0 e1
  show (s0Oob.ram.getD s0Oob.PC 0 <<< 8) ||| s0Oob.ram.getD (s0Oob.PC + 1) 0 = 0xAFFF
  rw [show s0Oob.ram = ramOob from rfl, show s0Oob.PC = (0x200 : Nat) from rfl,
      List.getD_eq_getElem?_getD, List.getD_eq_getElem?_getD]
  norm_num
  rw [e0, e1]
  decide

theorem s0Oob_step1 :
    emulate_instruction s0Oob = { s0Oob with PC := 0x202, I := 0xFFF } := by
  rw [emulate_instruction, s0Oob_fetch,
      show s0Oob.PC = (0x200 : Nat) from rfl]
  simp [exec, u16, instNNN,
        show ((0xAFFF : Nat) >>> 12) &&& 0xF = 0xA from by decide,
        show ((10 : Nat) &&& 15) = 10 from by decide,
        show ((0xAFFF : Nat) &&& 0xFFF) = 0xFFF from by decide]

set_option maxRecDepth 4096 in
theorem s0Oob_step2_fetch :
    fetchOp { s0Oob with PC := 0x202, I := 0xFFF } = 0xF133 := by
  have e2 : ramOob.getD (0x200 + 2) 0 = romOob.getD 2 0 :=
    writeRom_getD _ _ 2 writeFont_replicate_length (by norm_num [romOob])
  have e3 : ramOob.getD (0x200 + 3) 0 = romOob.getD 3 0 :=
    writeRom_getD _ _ 3 writeFont_replicate_length (by norm_num [romOob])
  norm_num [romOob] at e2 e3
  show (ramOob.getD 0x202 0 <<< 8) ||| ramOob.getD (0x202 + 1) 0 = 0xF133
  rw [List.getD_eq_getElem?_getD, List.getD_eq_getElem?_getD]
  norm_num
  rw [e2, e3]
  decide

/-- C10 counterexample: a reachable machine state whose next
instruction indexes the memory image out of bounds through `I`:
loading the four-byte program `romOob` succeeds, its first instruction
`0xAFFF` sets `I := 0xFFF`, and its second instruction `0xF133`
(store-BCD) then writes at `I+1 = 0x1000` and `I+2 = 0x1001`, past the
4096-byte memory image — the out-of-bounds branch is taken. -/
theorem mem_access_via_I_out_of_bounds_reachable :
    init_chip8 blankChip8 romOob = (LoadResult.ok, s0Oob) ∧
    s0Oob.iOob = false ∧
    (emulate_instruction (emulate_instruction s0Oob)).iOob = true := by
  refine ⟨rfl, rfl, ?_⟩
  rw [s0Oob_step1, emulate_instruction, s0Oob_step2_fetch]
  dsimp only
  simp only [exec, execF,
             show ((0xF133 : Nat) >>> 12) &&& 0xF = 0xF from by decide,
             show instNN 0xF133 = 0x33 from by decide]
  norm_num
  rw [show s0Oob.iOob = false from rfl,
      ramWriteI_flag_oob _ _ _
        (by rw [show s0Oob.ram = ramOob from rfl, ramOob_length]; omega)]
  simp

/-- C10 (amended): every memory-image access indexed through `I` —
the sprite-byte reads of the draw instruction, the three store-BCD
writes at `I`, `I+1`, `I+2`, and the register-dump/register-load
accesses at `I`..`I+X` — stays strictly below 4096 (the out-of-bounds
branch of the embedding is never taken) *provided* `I ≤ 4080` when the
instruction executes; the unrestricted claim over all reachable states
is false, because `I` can be set up to 0xFFF (and beyond, via
add-to-index) and the handlers then index past the end of memory. -/
theorem mem_accesses_via_I_in_bounds (s : Chip8)
    (hram : s.ram.length = 4096) (hI : s.I ≤ 4080) (h : s.iOob = false) :
    (emulate_instruction s).iOob = false := by
  rw [emulate_instruction]
  exact exec_iOob _ _ hram hI h

theorem mem_accesses_via_I_in_bounds_witness :
    (blankChip8.ram.length = 4096 ∧ blankChip8.I ≤ 4080 ∧
     blankChip8.iOob = false) ∧
    (emulate_instruction blankChip8).iOob = false :=
  ⟨⟨by rw [show blankChip8.ram = List.replicate 4096 0 from rfl,
           List.length_replicate], by decide, rfl⟩,
   mem_accesses_via_I_in_bounds blankChip8
     (by rw [show blankChip8.ram = List.replicate 4096 0 from rfl,
             List.length_replicate])
     (by decide) rfl⟩

end Chip8Spec
